import Mathlib

/-!
Verification development for the `ai_youtube_story` repository.

The definitions below are a shallow embedding of the key-rotation and
credit-aware text-to-speech dispatch logic of `maltilang.py`
(class `StoryPlanner`), together with the text chunking helper, the
credential loader and the LLM retry wrapper.  Strings of the Python
program are modelled as `String` or `List Char`, the ElevenLabs
subscription query and the Groq chat endpoint are modelled as oracles
passed in as functions, and the `while True` retry loop is given an
explicit fuel argument.  Python's float literal `1.1` is modelled as the
exact rational `11 / 10`.
-/

/-- Character class of Python's regex `\s` restricted to ASCII, as used by
`str.strip()` and `re.split` in `maltilang.py`. -/
def isPySpace (c : Char) : Bool :=
  c = ' ' || c = '\t' || c = '\n' || c = '\r' || c = '\x0b' || c = '\x0c'

/-- Substring test on character lists, modelling Python's `needle in hay`. -/
def listContains (needle : List Char) : List Char → Bool
  | [] => needle.isEmpty
  | c :: rest => needle.isPrefixOf (c :: rest) || listContains needle rest

/-- Error classification of `_handle_text_to_speech` (maltilang.py line 220):
`'quota_exceeded' in error_str or '401' in error_str or 'unauthorized' in
error_str` where `error_str = str(e).lower()`. -/
def isRecoverable (e : String) : Bool :=
  let s := e.data.map Char.toLower
  listContains "quota_exceeded".data s || listContains "401".data s ||
    listContains "unauthorized".data s

/-- Result of one ElevenLabs `text_to_speech.convert` call: either audio
bytes or a raised exception with its message. -/
inductive TTSResult where
  | success (audio : List Nat)
  | failure (msg : String)
deriving DecidableEq

/-- Observable steps of the `_handle_text_to_speech` retry loop: a synthesis
attempt with the current key index, a key rotation
(`_rotate_elevenlabs_key`), or the sleep-and-clear of the tried set. -/
inductive TTSEvent where
  | attempt (keyIdx : Nat)
  | rotate (newIdx : Nat)
  | sleepReset
deriving DecidableEq

/-- Outcome of the retry loop: returned audio, a propagated exception, or
fuel exhaustion of the model (the Python loop is `while True`). -/
inductive LoopOutcome where
  | ok (audio : List Nat)
  | err (msg : String)
  | outOfFuel
deriving DecidableEq

/-- Cursor update of `StoryPlanner._rotate_elevenlabs_key` (line 110):
`current_key_index = (current_key_index + 1) % len(elevenlabs_keys)`. -/
def rotate_elevenlabs_key (i n : Nat) : Nat := (i + 1) % n

/-- Initial value of `current_key_index` set in `__init__` (line 62) and the
credit-probe reset in `generate_voice_over` (line 575). -/
def initial_key_index : Nat := 0

/-- The `while True` retry loop of `_handle_text_to_speech`
(maltilang.py lines 186-232), with the synthesis call modelled by an
oracle indexed by the running count of synthesis attempts.  State:
current key index, the index remembered at entry (`initial_key_index` in
the Python source), the attempt counter and the set of tried keys
(a duplicate-free list, as only untried keys are ever added). -/
def ttsLoop (oracle : Nat → TTSResult) (keys : List String) :
    Nat → Nat → Nat → Nat → List String → LoopOutcome × List TTSEvent
  | 0, _, _, _, _ => (.outOfFuel, [])
  | fuel + 1, idx, initialIdx, attemptNo, tried =>
    if keys.getD idx "" ∈ tried then
      if keys.length ≤ tried.length then
        ((ttsLoop oracle keys fuel idx initialIdx attemptNo []).1,
          .sleepReset :: (ttsLoop oracle keys fuel idx initialIdx attemptNo []).2)
      else
        ((ttsLoop oracle keys fuel (rotate_elevenlabs_key idx keys.length) initialIdx attemptNo
            tried).1,
          .rotate (rotate_elevenlabs_key idx keys.length) ::
            (ttsLoop oracle keys fuel (rotate_elevenlabs_key idx keys.length) initialIdx attemptNo
              tried).2)
    else
      match oracle attemptNo with
      | .success a => (.ok a, [.attempt idx])
      | .failure e =>
        if isRecoverable e then
          if rotate_elevenlabs_key idx keys.length = initialIdx then
            ((ttsLoop oracle keys fuel (rotate_elevenlabs_key idx keys.length) initialIdx
                (attemptNo + 1) []).1,
              .attempt idx :: .rotate (rotate_elevenlabs_key idx keys.length) :: .sleepReset ::
                (ttsLoop oracle keys fuel (rotate_elevenlabs_key idx keys.length) initialIdx
                  (attemptNo + 1) []).2)
          else
            ((ttsLoop oracle keys fuel (rotate_elevenlabs_key idx keys.length) initialIdx
                (attemptNo + 1) (keys.getD idx "" :: tried)).1,
              .attempt idx :: .rotate (rotate_elevenlabs_key idx keys.length) ::
                (ttsLoop oracle keys fuel (rotate_elevenlabs_key idx keys.length) initialIdx
                  (attemptNo + 1) (keys.getD idx "" :: tried)).2)
        else (.err e, [.attempt idx])

/-- Key indices of the synthesis attempts recorded in a trace, in order. -/
def attemptIndices (t : List TTSEvent) : List Nat :=
  t.filterMap fun e => match e with | .attempt i => some i | _ => none

def cexOracle : Nat → TTSResult :=
  fun n => if n = 0 then .failure "quota_exceeded" else .success []

/-- Oracle with a single fatal synthesis failure, used in witnesses. -/
def fatalOracle : Nat → TTSResult := fun _ => .failure "boom"

/-- Result of one Groq `chat.completions.create` call in `_make_api_call`:
either a raised exception with its message, or a response carrying its
list of choices (message contents).  An empty choice list makes the
Python code raise `ValueError("Empty response from API")` inside the
`try`, which is then handled like any other failure. -/
inductive ApiResp where
  | exn (msg : String)
  | resp (choices : List String)
deriving DecidableEq

/-- Observable steps of `_make_api_call`: an attempt (0-based index into
`range(retry_count)`) and a sleep of the given number of seconds. -/
inductive ApiEvent where
  | attempt (k : Nat)
  | sleep (seconds : Nat)
deriving DecidableEq

/-- An attempt counts as failed when the call raised or returned no
choices. -/
def apiFailed : ApiResp → Bool
  | .exn _ => true
  | .resp [] => true
  | .resp (_ :: _) => false

/-- Message of the exception a failed attempt raises. -/
def apiErrMsg : ApiResp → String
  | .exn m => m
  | .resp _ => "Empty response from API"

/-- Content returned by a successful attempt: the first choice. -/
def apiContent : ApiResp → Option String
  | .resp (c :: _) => some c
  | _ => none

/-- Retry loop of `StoryPlanner._make_api_call` (maltilang.py lines
642-662): `for attempt in range(retry_count)`, on failure sleep
`2 ** attempt` seconds if `attempt < retry_count - 1`, else re-raise; on
success return the first choice's content.  Falling off the loop (only
possible when `retry_count = 0`) returns Python's implicit `None`.
Arguments after the oracle and `retry_count`: remaining iterations and
the current attempt index. -/
def make_api_call_go (api : Nat → ApiResp) (retryCount : Nat) :
    Nat → Nat → Except String (Option String) × List ApiEvent
  | 0, _ => (.ok none, [])
  | remaining + 1, attempt =>
    if apiFailed (api attempt) then
      if attempt < retryCount - 1 then
        ((make_api_call_go api retryCount remaining (attempt + 1)).1,
          .attempt attempt :: .sleep (2 ^ attempt) ::
            (make_api_call_go api retryCount remaining (attempt + 1)).2)
      else
        (.error (apiErrMsg (api attempt)), [.attempt attempt])
    else
      (.ok (apiContent (api attempt)), [.attempt attempt])

/-- Entry point of `_make_api_call` with its default `retry_count = 3`
kept as an explicit argument. -/
def make_api_call (api : Nat → ApiResp) (retryCount : Nat) :
    Except String (Option String) × List ApiEvent :=
  make_api_call_go api retryCount retryCount 0

/-- Number of attempts recorded in a trace of `_make_api_call`. -/
def countAttempts (t : List ApiEvent) : Nat :=
  (t.filter fun e => match e with | .attempt _ => true | _ => false).length

/-- Credit gate of `StoryPlanner._check_credit_balance` (maltilang.py
lines 114-142).  The subscription query is modelled as
`Option (Option Rat)`: `none` when `tts_client.user.get()` raises,
`some none` when the user info has no `subscription` attribute, and
`some (some r)` when a remaining character balance `r` is obtained.  The
Python comparison `remaining_chars >= len(text) * 1.1` is modelled with
the exact rational `11 / 10`. -/
def check_credit_balance (subscriptionInfo : Option (Option ℚ))
    (textLen : Nat) : Bool :=
  match subscriptionInfo with
  | none => true
  | some none => true
  | some (some remaining) => decide ((textLen : ℚ) * 11 / 10 ≤ remaining)

/-- Sentence terminator class of the regex `(?<=[.!?])\s+` used by the
local `chunk_text` helper of `generate_title_voice_over` (maltilang.py
line 492). -/
def isSentenceEnd (c : Char) : Bool := c = '.' || c = '!' || c = '?'

/-- Scanner for `re.split(r'(?<=[.!?])\s+', text)`: a split happens at a
maximal whitespace run immediately preceded by `.`, `!` or `?`, and the
whitespace run itself is consumed.  Arguments: remaining input, current
sentence accumulator (reversed), whether the previous character was a
terminator, and whether a separator run is being consumed. -/
def splitSentencesGo : List Char → List Char → Bool → Bool → List (List Char)
  | [], acc, _, _ => [acc.reverse]
  | c :: rest, acc, prevEnd, inSep =>
    if inSep then
      if isPySpace c then splitSentencesGo rest acc false true
      else splitSentencesGo rest [c] (isSentenceEnd c) false
    else
      if prevEnd && isPySpace c then
        acc.reverse :: splitSentencesGo rest [] false true
      else
        splitSentencesGo rest (c :: acc) (isSentenceEnd c) false

/-- Sentence list of a text, as computed by
`re.split(r'(?<=[.!?])\s+', text)` in `chunk_text`. -/
def splitSentences (text : List Char) : List (List Char) :=
  splitSentencesGo text [] false false

/-- Python's `" ".join(current_chunk)`: the sentences of one chunk joined
by single spaces. -/
def joinSp (xs : List (List Char)) : List Char := (xs.intersperse [' ']).flatten

/-- Chunk accumulation loop of the local `chunk_text` helper (maltilang.py
lines 493-510).  Arguments: remaining sentences, current chunk (in
order), `current_length` (the sum of the sentence lengths in the current
chunk, joining spaces not counted, exactly as in the Python code). -/
def chunkGo (C : Nat) : List (List Char) → List (List Char) → Nat → List (List Char)
  | [], cur, _ => if cur.isEmpty then [] else [joinSp cur]
  | s :: rest, cur, len =>
    if C < len + s.length ∧ cur ≠ [] then
      joinSp cur :: chunkGo C rest [s] s.length
    else
      chunkGo C rest (cur ++ [s]) (len + s.length)

/-- The same loop, returning each chunk as its list of sentences instead
of the joined string; used to analyse `chunk_text`. -/
def chunkGroupsGo (C : Nat) :
    List (List Char) → List (List Char) → Nat → List (List (List Char))
  | [], cur, _ => if cur.isEmpty then [] else [cur]
  | s :: rest, cur, len =>
    if C < len + s.length ∧ cur ≠ [] then
      cur :: chunkGroupsGo C rest [s] s.length
    else
      chunkGroupsGo C rest (cur ++ [s]) (len + s.length)

/-- The local `chunk_text(text, chunk_size)` helper defined inside
`generate_title_voice_over` (maltilang.py lines 491-510); the chunk size
parameter is passed first here. -/
def chunk_text (chunk_size : Nat) (text : List Char) : List (List Char) :=
  chunkGo chunk_size (splitSentences text) [] 0

/-- Default `chunk_size` of the Python helper. -/
def default_chunk_size : Nat := 4000

/-- Estimate of `StoryPlanner._estimate_total_credits_needed` (maltilang.py
lines 144-170): the character counts of all pending text files, summed
and multiplied by the 10 percent buffer `1.1` (the Python
`int(total * 1.1)` truncation is the rational floor here). -/
def estimate_total_credits_needed (textFiles : List (List Char)) : Nat :=
  (textFiles.map List.length).sum * 11 / 10

/-- Observable steps of `generate_voice_over`: probing one key's balance,
the credit-probe cursor reset, a finished title audio file, a section
script write, a synthesis call issued for a section chunk, and a section
audio file write. -/
inductive VOEvent where
  | probe (key : String)
  | resetIndex
  | titleAudio (n : Nat)
  | sectionScriptWrite (n : Nat)
  | synthesis (chunk : List Char)
  | sectionAudioWrite (n : Nat)
deriving DecidableEq

/-- Credit probe loop of `generate_voice_over` (maltilang.py lines
559-564): each key in order gets a fresh client and a
`_check_credit_balance` call on `"x" * total_chars_needed`, stopping at
the first sufficient key.  The subscription answer of each key's client
is the `probe` oracle. -/
def probeKeys (probe : String → Option (Option ℚ)) (total : Nat) :
    List String → Bool × List VOEvent
  | [] => (false, [])
  | k :: rest =>
    if check_credit_balance (probe k) total then (true, [.probe k])
    else
      ((probeKeys probe total rest).1,
        .probe k :: (probeKeys probe total rest).2)

/-- Title loop of `generate_voice_over` (maltilang.py lines 584-589):
`generate_title_voice_over` is called for `title_num = 1 .. num_titles`
and its outcome (it performs its own LLM calls, chunking, synthesis and
title-file writes) is abstracted as the `titleRun` oracle; an exception
aborts the loop.  Arguments: the oracle, the current title number and the
remaining count. -/
def titlePhase (titleRun : Nat → Except String Unit) :
    Nat → Nat → Except String Unit × List VOEvent
  | _, 0 => (.ok (), [])
  | i, m + 1 =>
    match titleRun i with
    | .error e => (.error e, [])
    | .ok _ =>
      ((titlePhase titleRun (i + 1) m).1,
        .titleAudio i :: (titlePhase titleRun (i + 1) m).2)

/-- Names defined at module level in `maltilang.py` (imports and top-level
definitions).  Python resolves a bare name inside a method body against
this set; `chunk_text` is not in it — it is local to
`generate_title_voice_over`. -/
def moduleGlobals : List String :=
  ["Groq", "time", "os", "logging", "Path", "Optional", "Dict", "load_dotenv",
   "json", "re", "SUPPORTED_LANGUAGES", "get_language_config",
   "get_script_template", "argparse", "init", "Fore", "Style", "ElevenLabs",
   "StoryPlanner", "main"]

/-- Section loop of `generate_voice_over` (maltilang.py lines 596-634):
for each section, the section script file is written, then the code
evaluates `chunk_text(section_text)`; that bare name is looked up in the
module globals, and since it is absent the interpreter raises
`NameError` before the section audio file is opened.  The branch that
would run if the name resolved performs the chunking, the synthesis
calls and the section audio write.  Sections are passed as their cleaned
section texts. -/
def sectionPhase : Nat → List (List Char) → Except String Unit × List VOEvent
  | _, [] => (.ok (), [])
  | i, s :: rest =>
    if moduleGlobals.contains "chunk_text" then
      ((sectionPhase (i + 1) rest).1,
        .sectionScriptWrite i ::
          ((chunk_text default_chunk_size s).map VOEvent.synthesis ++
            (.sectionAudioWrite i :: (sectionPhase (i + 1) rest).2)))
    else
      (.error "NameError: name chunk_text is not defined",
        [.sectionScriptWrite i])

/-- Batch driver `StoryPlanner.generate_voice_over` (maltilang.py lines
531-640): collect the pending text files, estimate the total characters
needed, probe every key's balance and abort when none suffices; otherwise
reset the cursor to the first key, generate every title voice-over, then
run the section loop.  File collection, `how_many_titles` and the body of
`generate_title_voice_over` are abstracted as the `textFiles`,
`numTitles` and `titleRun` parameters. -/
def generate_voice_over (keys : List String)
    (probe : String → Option (Option ℚ)) (textFiles : List (List Char))
    (numTitles : Nat) (titleRun : Nat → Except String Unit)
    (sections : List (List Char)) : Except String Unit × List VOEvent :=
  if (probeKeys probe (estimate_total_credits_needed textFiles) keys).1 then
    match (titlePhase titleRun 1 numTitles).1 with
    | .error e =>
      (.error e,
        (probeKeys probe (estimate_total_credits_needed textFiles) keys).2 ++
          (.resetIndex :: (titlePhase titleRun 1 numTitles).2))
    | .ok _ =>
      ((sectionPhase 1 sections).1,
        (probeKeys probe (estimate_total_credits_needed textFiles) keys).2 ++
          (.resetIndex ::
            ((titlePhase titleRun 1 numTitles).2 ++ (sectionPhase 1 sections).2)))
  else
    (.error "Insufficient credits to process all files",
      (probeKeys probe (estimate_total_credits_needed textFiles) keys).2)

/-- Python's `str.strip()` on a character list (ASCII whitespace on both
ends). -/
def pyStrip (s : List Char) : List Char :=
  ((s.dropWhile isPySpace).reverse.dropWhile isPySpace).reverse

/-- Python's `str.split(sep)` for a single-character separator: splits at
every occurrence of `sep`; `"".split(sep) == [""]`, and adjacent
separators yield empty fields. -/
def pySplit (sep : Char) : List Char → List (List Char)
  | [] => [[]]
  | c :: rest =>
    if c = sep then [] :: pySplit sep rest
    else (c :: (pySplit sep rest).headD []) :: (pySplit sep rest).tail

/-- Per-line extraction of `_load_elevenlabs_keys` (maltilang.py lines
80-85): lines containing `':'` yield `line.strip().split(':')[1]`, kept
when it starts with `sk_`. -/
def extract_key (line : List Char) : Option (List Char) :=
  if ':' ∈ line then
    if "sk_".data.isPrefixOf ((pySplit ':' (pyStrip line)).getD 1 []) then
      some ((pySplit ':' (pyStrip line)).getD 1 [])
    else none
  else none

/-- Loader `StoryPlanner._load_elevenlabs_keys` (maltilang.py lines
75-102) over the credential file's lines: the extracted keys in
file-line order, or an error when no line yields a valid key. -/
def load_elevenlabs_keys (lines : List (List Char)) :
    Except String (List (List Char)) :=
  if (lines.filterMap extract_key).isEmpty then
    Except.error "No valid API keys found in elevenlabs_apis file"
  else Except.ok (lines.filterMap extract_key)

/-- Everything after the first `sep` of a line (to the end of the line). -/
def after_first_colon (l : List Char) : List Char :=
  (l.dropWhile (fun c => decide (c ≠ ':'))).drop 1

/-- The claim's reading of the loader: the key is the whole part of the
stripped line after the FIRST colon. -/
def extract_key_claim (line : List Char) : Option (List Char) :=
  if ':' ∈ line then
    if "sk_".data.isPrefixOf (after_first_colon (pyStrip line)) then
      some (after_first_colon (pyStrip line))
    else none
  else none

/-- Loader as the claim states it, for comparison with the code. -/
def load_keys_claim (lines : List (List Char)) :
    Except String (List (List Char)) :=
  if (lines.filterMap extract_key_claim).isEmpty then
    Except.error "No valid API keys found in elevenlabs_apis file"
  else Except.ok (lines.filterMap extract_key_claim)

/-- The field of the stripped line between the first colon and the next
colon (the whole remainder when there is no second colon). -/
def second_colon_field (l : List Char) : List Char :=
  ((l.dropWhile (fun c => decide (c ≠ ':'))).drop 1).takeWhile
    (fun c => decide (c ≠ ':'))

/-- Amended reading of the loader, written from the amended claim: the
key of a line containing a colon is the second colon-separated field of
the stripped line, kept when it starts with `sk_`; error when no line
yields one. -/
def extract_key_amended (line : List Char) : Option (List Char) :=
  if ':' ∈ line then
    if "sk_".data.isPrefixOf (second_colon_field (pyStrip line)) then
      some (second_colon_field (pyStrip line))
    else none
  else none

/-- Loader as the amended claim states it. -/
def load_keys_amended (lines : List (List Char)) :
    Except String (List (List Char)) :=
  if (lines.filterMap extract_key_amended).isEmpty then
    Except.error "No valid API keys found in elevenlabs_apis file"
  else Except.ok (lines.filterMap extract_key_amended)

/-- Entry point `StoryPlanner._handle_text_to_speech` (maltilang.py lines
172-232): check the credit balance of the current client first (raising
`ValueError` when it reports insufficiency), then run the rotation retry
loop starting from the current cursor with an empty tried set, the entry
cursor remembered as `initial_key_index`. -/
def handle_text_to_speech (subscriptionInfo : Option (Option ℚ))
    (oracle : Nat → TTSResult) (keys : List String) (fuel idx : Nat)
    (text : List Char) : LoopOutcome × List TTSEvent :=
  if check_credit_balance subscriptionInfo text.length then
    ttsLoop oracle keys fuel idx idx 0 []
  else (.err "Insufficient credits to process text", [])

/-- One step of the loop: fresh key, recoverable failure, full cycle
detected (the rotated cursor equals the remembered entry cursor): sleep,
clear the tried set and continue from the rotated cursor. -/
theorem ttsLoop_step_cycle (oracle : Nat → TTSResult) (keys : List String)
    (fuel idx initialIdx attemptNo : Nat) (tried : List String) (e : String)
    (hcur : keys.getD idx "" ∉ tried)
    (hfail : oracle attemptNo = .failure e)
    (hrec : isRecoverable e = true)
    (hinit : rotate_elevenlabs_key idx keys.length = initialIdx) :
    ttsLoop oracle keys (fuel + 1) idx initialIdx attemptNo tried
      = ((ttsLoop oracle keys fuel (rotate_elevenlabs_key idx keys.length)
            initialIdx (attemptNo + 1) []).1,
         .attempt idx :: .rotate (rotate_elevenlabs_key idx keys.length) ::
           .sleepReset ::
           (ttsLoop oracle keys fuel (rotate_elevenlabs_key idx keys.length)
             initialIdx (attemptNo + 1) []).2) := by
  conv_lhs => rw [ttsLoop]
  rw [if_neg hcur, hfail]
  simp [hrec, hinit]

/-- One step of the loop: fresh key, recoverable failure, no full cycle:
rotate, record the key as tried and continue from the rotated cursor. -/
theorem ttsLoop_step_rotate (oracle : Nat → TTSResult) (keys : List String)
    (fuel idx initialIdx attemptNo : Nat) (tried : List String) (e : String)
    (hcur : keys.getD idx "" ∉ tried)
    (hfail : oracle attemptNo = .failure e)
    (hrec : isRecoverable e = true)
    (hinit : rotate_elevenlabs_key idx keys.length ≠ initialIdx) :
    ttsLoop oracle keys (fuel + 1) idx initialIdx attemptNo tried
      = ((ttsLoop oracle keys fuel (rotate_elevenlabs_key idx keys.length)
            initialIdx (attemptNo + 1) (keys.getD idx "" :: tried)).1,
         .attempt idx :: .rotate (rotate_elevenlabs_key idx keys.length) ::
           (ttsLoop oracle keys fuel (rotate_elevenlabs_key idx keys.length)
             initialIdx (attemptNo + 1) (keys.getD idx "" :: tried)).2) := by
  conv_lhs => rw [ttsLoop]
  rw [if_neg hcur, hfail]
  simp [hrec, hinit]

/-- One step of the loop: fresh key, non-recoverable failure: the
exception propagates at once, after a single attempt and no rotation. -/
theorem ttsLoop_step_fatal (oracle : Nat → TTSResult) (keys : List String)
    (fuel idx initialIdx attemptNo : Nat) (tried : List String) (e : String)
    (hcur : keys.getD idx "" ∉ tried)
    (hfail : oracle attemptNo = .failure e)
    (hnr : isRecoverable e = false) :
    ttsLoop oracle keys (fuel + 1) idx initialIdx attemptNo tried
      = (.err e, [.attempt idx]) := by
  conv_lhs => rw [ttsLoop]
  rw [if_neg hcur, hfail]
  simp [hnr]

/-- One step of the loop: the current key was already tried and the tried
set has reached the pool size: sleep and clear the tried set, keeping the
cursor. -/
theorem ttsLoop_step_tried_full (oracle : Nat → TTSResult) (keys : List String)
    (fuel idx initialIdx attemptNo : Nat) (tried : List String)
    (hmem : keys.getD idx "" ∈ tried)
    (hfull : keys.length ≤ tried.length) :
    ttsLoop oracle keys (fuel + 1) idx initialIdx attemptNo tried
      = ((ttsLoop oracle keys fuel idx initialIdx attemptNo []).1,
         .sleepReset ::
           (ttsLoop oracle keys fuel idx initialIdx attemptNo []).2) := by
  conv_lhs => rw [ttsLoop]
  rw [if_pos hmem, if_pos hfull]

/-- When the current key has not been tried yet, the loop's next recorded
event is a synthesis attempt with the current index, whatever the oracle
answers. -/
theorem ttsLoop_untried_head (oracle : Nat → TTSResult) (keys : List String)
    (fuel idx initialIdx attemptNo : Nat) (tried : List String)
    (hcur : keys.getD idx "" ∉ tried) :
    ∃ t, (ttsLoop oracle keys (fuel + 1) idx initialIdx attemptNo tried).2
      = .attempt idx :: t := by
  simp only [ttsLoop, if_neg hcur]
  split
  · exact ⟨[], rfl⟩
  · split
    · split
      · exact ⟨_, rfl⟩
      · exact ⟨_, rfl⟩
    · exact ⟨[], rfl⟩

/-- Every exception propagated out of the retry loop is non-recoverable:
the loop never raises a quota or unauthorized error and never raises
merely because every key has been tried. -/
theorem ttsLoop_err_not_recoverable (oracle : Nat → TTSResult) (keys : List String) :
    ∀ fuel idx initialIdx attemptNo tried e,
      (ttsLoop oracle keys fuel idx initialIdx attemptNo tried).1 =
        LoopOutcome.err e →
      isRecoverable e = false := by
  intro fuel
  induction fuel with
  | zero =>
    intro idx initialIdx attemptNo tried e h
    simp [ttsLoop] at h
  | succ n ih =>
    intro idx initialIdx attemptNo tried e h
    simp only [ttsLoop] at h
    split at h
    · split at h
      · exact ih _ _ _ _ _ h
      · exact ih _ _ _ _ _ h
    · split at h
      · simp at h
      · rename_i e' _
        split at h
        · split at h
          · exact ih _ _ _ _ _ h
          · exact ih _ _ _ _ _ h
        · rename_i hnr
          simp only [Prod.fst] at h
          cases h
          exact Bool.eq_false_iff.mpr hnr

/-- Pigeonhole for the tried set: a duplicate-free list of keys drawn from
the pool whose length has reached the pool size contains every pool key. -/
theorem mem_of_tried_full {tried keys : List String}
    (hsub : ∀ k ∈ tried, k ∈ keys) (hnd : tried.Nodup)
    (hfull : keys.length ≤ tried.length) {x : String} (hx : x ∈ keys) :
    x ∈ tried := by
  have h1 : tried.toFinset ⊆ keys.toFinset := by
    intro a ha
    simp only [List.mem_toFinset] at *
    exact hsub a ha
  have h2 : keys.toFinset.card ≤ tried.toFinset.card := by
    have hk : keys.toFinset.card ≤ keys.length := keys.toFinset_card_le
    have ht : tried.toFinset.card = tried.length :=
      List.toFinset_card_of_nodup hnd
    omega
  have h3 : tried.toFinset = keys.toFinset :=
    Finset.eq_of_subset_of_card_le h1 h2
  have h4 : x ∈ tried.toFinset := by
    rw [h3]
    simpa using hx
  simpa using h4

/-- Element read by the loop head is a member of the pool when the cursor is
in range. -/
theorem getD_mem_of_lt {keys : List String} {idx : Nat} (h : idx < keys.length) :
    keys.getD idx "" ∈ keys := by
  rw [List.getD_eq_getElem keys "" h]
  exact List.getElem_mem h

/-- C1 counterexample: with the key pool `["a", "a", "b"]` (duplicates are
allowed, the loader enforces no uniqueness) and cursor 0, the attempt on
key 0 fails with `quota_exceeded`; the rotation sets the cursor to
`(0 + 1) % 3 = 1`, but key 1 is the already-tried string `"a"`, so the
loop rotates past it and the next synthesis attempt uses key 2, not
key 1. -/
theorem rotation_next_key_cex :
    attemptIndices (ttsLoop cexOracle ["a", "a", "b"] 10 0 0 0 []).2 = [0, 2] ∧
    rotate_elevenlabs_key 0 3 = 1 ∧ (2 : Nat) ≠ 1 := by decide

/-- C1 (amended): when a synthesis attempt on key `idx` fails with a
quota-exceeded or unauthorized error, the next synthesis attempt uses key
`(idx + 1) % N` provided the key string at that index has not already
been tried in the current pass (in particular whenever the pool keys are
pairwise distinct); the full-cycle case resets the tried set and also
retries key `(idx + 1) % N`. -/
theorem rotation_next_attempt (oracle : Nat → TTSResult) (keys : List String)
    (fuel idx initialIdx attemptNo : Nat) (tried : List String) (e : String)
    (hidx : idx < keys.length)
    (hcur : keys.getD idx "" ∉ tried)
    (hfail : oracle attemptNo = .failure e)
    (hrec : isRecoverable e = true)
    (hnext :
      keys.getD (rotate_elevenlabs_key idx keys.length) "" ∉
          keys.getD idx "" :: tried ∨
        rotate_elevenlabs_key idx keys.length = initialIdx) :
    (attemptIndices
        (ttsLoop oracle keys (fuel + 2) idx initialIdx attemptNo tried).2).take 2
      = [idx, rotate_elevenlabs_key idx keys.length] := by
  have hstep : fuel + 2 = (fuel + 1) + 1 := rfl
  rw [hstep]
  by_cases hinit : rotate_elevenlabs_key idx keys.length = initialIdx
  · obtain ⟨t, ht⟩ := ttsLoop_untried_head oracle keys fuel
      (rotate_elevenlabs_key idx keys.length) initialIdx (attemptNo + 1) []
      (by simp)
    rw [ttsLoop_step_cycle oracle keys (fuel + 1) idx initialIdx attemptNo
      tried e hcur hfail hrec hinit]
    simp only [ht, attemptIndices, List.filterMap_cons, List.take]
  · rcases hnext with hnext | hnext
    · obtain ⟨t, ht⟩ := ttsLoop_untried_head oracle keys fuel
        (rotate_elevenlabs_key idx keys.length) initialIdx (attemptNo + 1)
        (keys.getD idx "" :: tried) hnext
      rw [ttsLoop_step_rotate oracle keys (fuel + 1) idx initialIdx attemptNo
        tried e hcur hfail hrec hinit]
      simp only [ht, attemptIndices, List.filterMap_cons, List.take]
    · exact absurd hnext hinit

/-- C1 witness: with two distinct keys and a quota failure on key 0, the
attempts are key 0 then key `(0 + 1) % 2 = 1`. -/
theorem rotation_next_attempt_witness :
    (attemptIndices (ttsLoop cexOracle ["a", "b"] 2 0 0 0 []).2).take 2
      = [0, rotate_elevenlabs_key 0 2] :=
  rotation_next_attempt cexOracle ["a", "b"] 0 0 0 0 [] "quota_exceeded"
    (by decide) (by decide) rfl (by decide) (Or.inl (by decide))

/-- C4: on a synthesis failure whose message contains `quota_exceeded`,
`401` or `unauthorized` (case-insensitive), the dispatcher rotates to the
next key and retries (its outcome is that of the continued loop after the
rotation); on every other failure the exception propagates immediately,
with no rotation and no further attempt. -/
theorem tts_error_dispatch (oracle : Nat → TTSResult) (keys : List String)
    (fuel idx initialIdx attemptNo : Nat) (tried : List String) (e : String)
    (hcur : keys.getD idx "" ∉ tried)
    (hfail : oracle attemptNo = .failure e) :
    (isRecoverable e = true →
      ((ttsLoop oracle keys (fuel + 1) idx initialIdx attemptNo tried).2).take 2
        = [.attempt idx, .rotate (rotate_elevenlabs_key idx keys.length)] ∧
      (ttsLoop oracle keys (fuel + 1) idx initialIdx attemptNo tried).1
        = (if rotate_elevenlabs_key idx keys.length = initialIdx then
            ttsLoop oracle keys fuel (rotate_elevenlabs_key idx keys.length)
              initialIdx (attemptNo + 1) []
          else
            ttsLoop oracle keys fuel (rotate_elevenlabs_key idx keys.length)
              initialIdx (attemptNo + 1) (keys.getD idx "" :: tried)).1) ∧
    (isRecoverable e = false →
      ttsLoop oracle keys (fuel + 1) idx initialIdx attemptNo tried
        = (.err e, [.attempt idx])) := by
  constructor
  · intro hrec
    by_cases hinit : rotate_elevenlabs_key idx keys.length = initialIdx
    · rw [ttsLoop_step_cycle oracle keys fuel idx initialIdx attemptNo tried e
        hcur hfail hrec hinit, if_pos hinit]
      simp [List.take]
    · rw [ttsLoop_step_rotate oracle keys fuel idx initialIdx attemptNo tried e
        hcur hfail hrec hinit, if_neg hinit]
      simp [List.take]
  · intro hnr
    exact ttsLoop_step_fatal oracle keys fuel idx initialIdx attemptNo tried e
      hcur hfail hnr

/-- C4 witness: a fatal error (`boom`) propagates at once with a single
attempt and no rotation. -/
theorem tts_error_dispatch_witness :
    ttsLoop fatalOracle ["a", "b"] 1 0 0 0 [] = (.err "boom", [.attempt 0]) :=
  (tts_error_dispatch fatalOracle ["a", "b"] 0 0 0 0 [] "boom" (by decide)
    rfl).2 (by decide)

/-- C5: when the tried set has reached the pool size (every pool key has
been tried in this pass), the dispatcher sleeps and clears the tried set
without attempting any key, and the loop continues with an empty tried
set; moreover any exception it ever propagates is a non-recoverable
synthesis error, so it never raises solely because all keys were tried. -/
theorem tts_all_tried_sleep_reset (oracle : Nat → TTSResult) (keys : List String)
    (fuel idx initialIdx attemptNo : Nat) (tried : List String)
    (hidx : idx < keys.length)
    (hsub : ∀ k ∈ tried, k ∈ keys)
    (hnd : tried.Nodup)
    (hfull : keys.length ≤ tried.length) :
    ttsLoop oracle keys (fuel + 1) idx initialIdx attemptNo tried
      = ((ttsLoop oracle keys fuel idx initialIdx attemptNo []).1,
         TTSEvent.sleepReset ::
           (ttsLoop oracle keys fuel idx initialIdx attemptNo []).2) ∧
    (∀ e, (ttsLoop oracle keys (fuel + 1) idx initialIdx attemptNo tried).1 =
        LoopOutcome.err e → isRecoverable e = false) := by
  have hmem : keys.getD idx "" ∈ tried :=
    mem_of_tried_full hsub hnd hfull (getD_mem_of_lt hidx)
  refine ⟨?_, fun e h => ttsLoop_err_not_recoverable oracle keys _ _ _ _ _ _ h⟩
  exact ttsLoop_step_tried_full oracle keys fuel idx initialIdx attemptNo tried
    hmem hfull

/-- C5 witness: with both pool keys tried, the next step is the
sleep-and-reset, with no synthesis attempt. -/
theorem tts_all_tried_sleep_reset_witness :
    ttsLoop fatalOracle ["a", "b"] 1 0 0 0 ["b", "a"]
      = ((ttsLoop fatalOracle ["a", "b"] 0 0 0 0 []).1,
         TTSEvent.sleepReset ::
           (ttsLoop fatalOracle ["a", "b"] 0 0 0 0 []).2) :=
  (tts_all_tried_sleep_reset fatalOracle ["a", "b"] 0 0 0 0 ["b", "a"]
    (by decide) (by decide) (by decide) (by decide)).1

/-- Rotation events recorded by the dispatch loop always carry an index
below the pool size. -/
theorem ttsLoop_rotate_lt (oracle : Nat → TTSResult) (keys : List String)
    (hn : 0 < keys.length) :
    ∀ fuel idx initialIdx attemptNo tried j,
      TTSEvent.rotate j ∈
        (ttsLoop oracle keys fuel idx initialIdx attemptNo tried).2 →
      j < keys.length := by
  intro fuel
  induction fuel with
  | zero =>
    intro idx initialIdx attemptNo tried j h
    simp [ttsLoop] at h
  | succ n ih =>
    intro idx initialIdx attemptNo tried j h
    simp only [ttsLoop] at h
    split at h
    · split at h
      · simp only [List.mem_cons] at h
        rcases h with h | h
        · simp at h
        · exact ih _ _ _ _ _ h
      · simp only [List.mem_cons] at h
        rcases h with h | h
        · simp only [TTSEvent.rotate.injEq] at h
          subst h
          exact Nat.mod_lt _ hn
        · exact ih _ _ _ _ _ h
    · split at h
      · simp at h
      · split at h
        · split at h
          · simp only [List.mem_cons] at h
            rcases h with h | h | h | h
            · simp at h
            · simp only [TTSEvent.rotate.injEq] at h
              subst h
              exact Nat.mod_lt _ hn
            · simp at h
            · exact ih _ _ _ _ _ h
          · simp only [List.mem_cons] at h
            rcases h with h | h | h
            · simp at h
            · simp only [TTSEvent.rotate.injEq] at h
              subst h
              exact Nat.mod_lt _ hn
            · exact ih _ _ _ _ _ h
        · simp at h

/-- C8: the rotation cursor is always a valid pool index: the initial
value (and the credit-probe reset value) `0` is below any pool size
`N ≥ 1`, rotation maps an in-range index to an in-range index, and every
rotation performed inside the dispatch loop records an in-range index. -/
theorem key_index_in_range (keys : List String) (i : Nat)
    (hn : 1 ≤ keys.length) (hi : i < keys.length) :
    initial_key_index < keys.length ∧
    rotate_elevenlabs_key i keys.length < keys.length ∧
    ∀ oracle fuel initialIdx attemptNo tried j,
      TTSEvent.rotate j ∈
        (ttsLoop oracle keys fuel i initialIdx attemptNo tried).2 →
      j < keys.length := by
  refine ⟨hn, Nat.mod_lt _ hn, ?_⟩
  intro oracle fuel initialIdx attemptNo tried j h
  exact ttsLoop_rotate_lt oracle keys hn fuel i initialIdx attemptNo tried j h

/-- C8 witness at a pool of size two and cursor one. -/
theorem key_index_in_range_witness :
    initial_key_index < (["a", "b"] : List String).length ∧
    rotate_elevenlabs_key 1 (["a", "b"] : List String).length <
      (["a", "b"] : List String).length :=
  ⟨(key_index_in_range ["a", "b"] 1 (by decide) (by decide)).1,
   (key_index_in_range ["a", "b"] 1 (by decide) (by decide)).2.1⟩

/-- The retry loop never makes more attempts than it has remaining
iterations. -/
theorem make_api_call_go_attempts_le (api : Nat → ApiResp) (retryCount : Nat) :
    ∀ remaining attempt,
      countAttempts (make_api_call_go api retryCount remaining attempt).2 ≤
        remaining := by
  intro remaining
  induction remaining with
  | zero => intro attempt; simp [make_api_call_go, countAttempts]
  | succ n ih =>
    intro attempt
    simp only [make_api_call_go]
    split
    · split
      · simpa [countAttempts, List.filter] using
          Nat.succ_le_succ (ih (attempt + 1))
      · simp [countAttempts]
    · simp [countAttempts]

/-- C6: every chat-completion call through `_make_api_call` with the
default `retry_count = 3` makes at most 3 attempts; when attempt 1 fails
the loop sleeps `2 ^ 0 = 1` second, when attempt 2 also fails it sleeps
`2 ^ 1 = 2` seconds, and when attempt 3 fails too its exception
propagates to the caller with no further sleep or attempt. -/
theorem llm_retry_backoff (api : Nat → ApiResp) :
    countAttempts (make_api_call api 3).2 ≤ 3 ∧
    (apiFailed (api 0) = true → apiFailed (api 1) = true →
      apiFailed (api 2) = true →
      make_api_call api 3
        = (.error (apiErrMsg (api 2)),
           [.attempt 0, .sleep (2 ^ 0), .attempt 1, .sleep (2 ^ 1),
             .attempt 2])) := by
  refine ⟨make_api_call_go_attempts_le api 3 3 0, ?_⟩
  intro h0 h1 h2
  simp [make_api_call, make_api_call_go, h0, h1, h2]

/-- C6 witness: with every attempt raising `boom`, the trace is three
attempts separated by sleeps of 1 and 2 seconds and the final error
propagates. -/
theorem llm_retry_backoff_witness :
    make_api_call (fun _ => ApiResp.exn "boom") 3
      = (.error "boom",
         [.attempt 0, .sleep (2 ^ 0), .attempt 1, .sleep (2 ^ 1),
           .attempt 2]) :=
  (llm_retry_backoff (fun _ => ApiResp.exn "boom")).2 rfl rfl rfl

/-- C9: the credit gate fails open: it returns `true` when the
subscription query raises and when the user info has no subscription
attribute, and it returns `false` exactly when a balance was obtained
and that balance is below 1.1 times the text length. -/
theorem credit_check_fails_open (textLen : Nat) (remaining : ℚ) :
    check_credit_balance none textLen = true ∧
    check_credit_balance (some none) textLen = true ∧
    (check_credit_balance (some (some remaining)) textLen = false ↔
      remaining < (textLen : ℚ) * 11 / 10) := by
  refine ⟨rfl, rfl, ?_⟩
  simp [check_credit_balance, decide_eq_false_iff_not, not_le]

/-- Every chunk produced by the loop is the space-join of the
corresponding sentence group. -/
theorem chunkGo_eq_groups (C : Nat) :
    ∀ ss cur len,
      chunkGo C ss cur len = (chunkGroupsGo C ss cur len).map joinSp := by
  intro ss
  induction ss with
  | nil =>
    intro cur len
    simp only [chunkGo, chunkGroupsGo]
    split
    · simp
    · simp
  | cons s rest ih =>
    intro cur len
    simp only [chunkGo, chunkGroupsGo]
    split
    · simp [ih]
    · exact ih _ _

/-- The sentence groups concatenate back to the input sentence list:
no sentence is dropped, duplicated or reordered. -/
theorem chunkGroupsGo_join (C : Nat) :
    ∀ ss cur len, (chunkGroupsGo C ss cur len).flatten = cur ++ ss := by
  intro ss
  induction ss with
  | nil =>
    intro cur len
    simp only [chunkGroupsGo]
    split
    · rename_i h
      simp [List.isEmpty_iff.mp h]
    · simp
  | cons s rest ih =>
    intro cur len
    simp only [chunkGroupsGo]
    split
    · simp [ih]
    · simp [ih]

/-- Every emitted sentence group is nonempty. -/
theorem chunkGroupsGo_ne_nil (C : Nat) :
    ∀ ss cur len g, g ∈ chunkGroupsGo C ss cur len → g ≠ [] := by
  intro ss
  induction ss with
  | nil =>
    intro cur len g hg
    simp only [chunkGroupsGo] at hg
    split at hg
    · simp at hg
    · rename_i h
      simp only [List.mem_singleton] at hg
      subst hg
      simpa [List.isEmpty_iff] using h
  | cons s rest ih =>
    intro cur len g hg
    simp only [chunkGroupsGo] at hg
    split at hg
    · rename_i h
      rcases List.mem_cons.mp hg with hg | hg
      · subst hg; exact h.2
      · exact ih _ _ _ hg
    · exact ih _ _ _ hg

/-- When every sentence fits in the chunk size, every emitted group's
total sentence length fits in the chunk size. -/
theorem chunkGroupsGo_bound (C : Nat) :
    ∀ ss cur len, (∀ s ∈ ss, s.length ≤ C) →
      len = (cur.map List.length).sum → len ≤ C →
      ∀ g ∈ chunkGroupsGo C ss cur len, (g.map List.length).sum ≤ C := by
  intro ss
  induction ss with
  | nil =>
    intro cur len _ hlen hle g hg
    simp only [chunkGroupsGo] at hg
    split at hg
    · simp at hg
    · simp only [List.mem_singleton] at hg
      subst hg
      omega
  | cons s rest ih =>
    intro cur len hss hlen hle g hg
    have hsC : s.length ≤ C := hss s (List.mem_cons_self s rest)
    have hrest : ∀ t ∈ rest, t.length ≤ C :=
      fun t ht => hss t (List.mem_cons_of_mem s ht)
    simp only [chunkGroupsGo] at hg
    split at hg
    · rcases List.mem_cons.mp hg with hg | hg
      · subst hg; omega
      · exact ih [s] s.length hrest (by simp) hsC g hg
    · rename_i hcond
      have hle2 : len + s.length ≤ C := by
        by_cases hc : len + s.length ≤ C
        · exact hc
        · have : cur = [] := by
            by_contra hne
            exact hcond ⟨by omega, hne⟩
          subst this
          simp at hlen
          omega
      exact ih (cur ++ [s]) (len + s.length) hrest (by simp [hlen]) hle2 g hg

/-- Length of a space-joined nonempty group: the total sentence length
plus one joining space between consecutive sentences. -/
theorem joinSp_length :
    ∀ xs : List (List Char), xs ≠ [] →
      (joinSp xs).length = (xs.map List.length).sum + (xs.length - 1) := by
  intro xs
  induction xs with
  | nil => intro h; exact absurd rfl h
  | cons a t ih =>
    intro _
    cases t with
    | nil => simp [joinSp, List.intersperse]
    | cons b t' =>
      have hih := ih (by simp)
      have hexp : joinSp (a :: b :: t') = a ++ (' ' :: joinSp (b :: t')) := by
        simp [joinSp, List.intersperse]
      rw [hexp]
      simp only [List.length_append, List.length_cons]
      rw [hih]
      simp only [List.map_cons, List.sum_cons, List.length_cons]
      omega

/-- C3 counterexample: a text that is a single sentence of length 3 with
chunk limit `C = 2` is returned as one chunk of length 3, so the produced
chunks do not all have length at most `C`. -/
theorem chunking_cex :
    chunk_text 2 "abc".data = ["abc".data] ∧
    ¬ (∀ ch ∈ chunk_text 2 "abc".data, ch.length ≤ 2) := by decide

/-- C3 (amended): `chunk_text` splits only at sentence boundaries — every
chunk is the single-space join of a nonempty group of consecutive
sentences, and the groups concatenate back to exactly the sentence list
of the original text (inter-sentence whitespace is normalized to single
spaces); and provided every individual sentence has length at most `C`,
the total sentence length of each chunk is at most `C`, so each produced
chunk has length at most `C` plus its number of joining spaces. -/
theorem chunking_amended (C : Nat) (text : List Char)
    (hs : ∀ s ∈ splitSentences text, s.length ≤ C) :
    chunk_text C text
      = (chunkGroupsGo C (splitSentences text) [] 0).map joinSp ∧
    (chunkGroupsGo C (splitSentences text) [] 0).flatten
      = splitSentences text ∧
    ∀ g ∈ chunkGroupsGo C (splitSentences text) [] 0,
      g ≠ [] ∧ (g.map List.length).sum ≤ C ∧
        (joinSp g).length ≤ C + (g.length - 1) := by
  refine ⟨chunkGo_eq_groups C (splitSentences text) [] 0, ?_, ?_⟩
  · simpa using chunkGroupsGo_join C (splitSentences text) [] 0
  · intro g hg
    have hne := chunkGroupsGo_ne_nil C (splitSentences text) [] 0 g hg
    have hb := chunkGroupsGo_bound C (splitSentences text) [] 0 hs (by simp)
      (Nat.zero_le C) g hg
    refine ⟨hne, hb, ?_⟩
    rw [joinSp_length g hne]
    omega

/-- C3 witness at a concrete text whose two sentences of length 3 fit a
chunk size of 4 one at a time: the groups flatten back to the sentence
list. -/
theorem chunking_amended_witness :
    (chunkGroupsGo 4 (splitSentences "ab. cd.".data) [] 0).flatten
      = splitSentences "ab. cd.".data :=
  (chunking_amended 4 "ab. cd.".data (by decide)).2.1

/-- A key whose reported balance is below the estimate fails the probe. -/
theorem check_credit_balance_false_of_lt (total : Nat) (r : ℚ)
    (hlt : r < (total : ℚ)) :
    check_credit_balance (some (some r)) total = false := by
  have h0 : (0 : ℚ) ≤ (total : ℚ) := Nat.cast_nonneg total
  have : r < (total : ℚ) * 11 / 10 := by linarith
  simp [check_credit_balance]
  linarith

/-- When every key fails the probe, the probe loop scans the whole pool
and reports failure, recording only probe events. -/
theorem probeKeys_all_fail (probe : String → Option (Option ℚ)) (total : Nat) :
    ∀ keys : List String,
      (∀ k ∈ keys, check_credit_balance (probe k) total = false) →
      probeKeys probe total keys = (false, keys.map VOEvent.probe) := by
  intro keys
  induction keys with
  | nil => intro _; rfl
  | cons k rest ih =>
    intro h
    have hk := h k (List.mem_cons_self k rest)
    have hrest := ih fun t ht => h t (List.mem_cons_of_mem k ht)
    simp [probeKeys, hk, hrest]

/-- C2: when the estimated total character count exceeds the balance
reported by every key in the pool, `generate_voice_over` raises the
insufficient-credits error, and its trace holds only the key probes — in
particular no synthesis call is issued and no audio is produced. -/
theorem credit_gate_aborts (keys : List String)
    (probe : String → Option (Option ℚ)) (textFiles : List (List Char))
    (numTitles : Nat) (titleRun : Nat → Except String Unit)
    (sections : List (List Char))
    (hall : ∀ k ∈ keys, ∃ r : ℚ, probe k = some (some r) ∧
      r < (estimate_total_credits_needed textFiles : ℚ)) :
    (generate_voice_over keys probe textFiles numTitles titleRun sections).1
      = Except.error "Insufficient credits to process all files" ∧
    ∀ ev ∈ (generate_voice_over keys probe textFiles numTitles titleRun
        sections).2, ∃ k, ev = VOEvent.probe k := by
  have hfail : ∀ k ∈ keys,
      check_credit_balance (probe k)
        (estimate_total_credits_needed textFiles) = false := by
    intro k hk
    obtain ⟨r, hpr, hlt⟩ := hall k hk
    rw [hpr]
    exact check_credit_balance_false_of_lt _ r hlt
  have hprobe := probeKeys_all_fail probe
    (estimate_total_credits_needed textFiles) keys hfail
  have hgen : generate_voice_over keys probe textFiles numTitles titleRun
      sections
      = (Except.error "Insufficient credits to process all files",
         keys.map VOEvent.probe) := by
    simp [generate_voice_over, hprobe]
  rw [hgen]
  refine ⟨rfl, ?_⟩
  intro ev hev
  simp only [List.mem_map] at hev
  obtain ⟨k, _, hk⟩ := hev
  exact ⟨k, hk.symm⟩

/-- C2 witness: two keys each reporting a balance of 5 against an estimate
of 11 characters; the batch aborts with only the two probes in the
trace. -/
theorem credit_gate_aborts_witness :
    (generate_voice_over ["k1", "k2"] (fun _ => some (some 5))
        [List.replicate 10 'a'] 1 (fun _ => Except.ok ()) []).1
      = Except.error "Insufficient credits to process all files" :=
  (credit_gate_aborts ["k1", "k2"] (fun _ => some (some 5))
    [List.replicate 10 'a'] 1 (fun _ => Except.ok ()) []
    (fun k _ => ⟨5, rfl, by norm_num [estimate_total_credits_needed]⟩)).1

/-- When every title generation succeeds, the title phase succeeds and
records only title audio events. -/
theorem titlePhase_ok (titleRun : Nat → Except String Unit)
    (hok : ∀ i, titleRun i = .ok ()) :
    ∀ m i, (titlePhase titleRun i m).1 = .ok () ∧
      ∀ ev ∈ (titlePhase titleRun i m).2, ∃ n, ev = VOEvent.titleAudio n := by
  intro m
  induction m with
  | zero =>
    intro i
    exact ⟨rfl, by simp [titlePhase]⟩
  | succ n ih =>
    intro i
    simp only [titlePhase, hok i]
    refine ⟨(ih (i + 1)).1, ?_⟩
    intro ev hev
    rcases List.mem_cons.mp hev with h | h
    · exact ⟨i, h⟩
    · exact (ih (i + 1)).2 ev h

/-- The probe loop records only probe events. -/
theorem probeKeys_events (probe : String → Option (Option ℚ)) (total : Nat) :
    ∀ (keys : List String) (ev : VOEvent),
      ev ∈ (probeKeys probe total keys).2 → ∃ k, ev = VOEvent.probe k := by
  intro keys
  induction keys with
  | nil =>
    intro ev h
    simp [probeKeys] at h
  | cons k rest ih =>
    intro ev h
    simp only [probeKeys] at h
    split at h
    · simp only [List.mem_singleton] at h
      exact ⟨k, h⟩
    · rcases List.mem_cons.mp h with h | h
      · exact ⟨k, h⟩
      · exact ih ev h

/-- C10: `chunk_text` is local to `generate_title_voice_over`, so once the
credit gate passes and every title voice-over succeeds, the section loop
of `generate_voice_over` on a nonempty section list raises `NameError` at
its `chunk_text` call — after writing the first section script but before
issuing any section synthesis call — and no section audio file content is
ever produced by that path. -/
theorem section_chunk_nameerror (keys : List String)
    (probe : String → Option (Option ℚ)) (textFiles : List (List Char))
    (numTitles : Nat) (titleRun : Nat → Except String Unit)
    (s : List Char) (rest : List (List Char))
    (hgate :
      (probeKeys probe (estimate_total_credits_needed textFiles) keys).1
        = true)
    (htitles : ∀ i, titleRun i = .ok ()) :
    (generate_voice_over keys probe textFiles numTitles titleRun
        (s :: rest)).1
      = Except.error "NameError: name chunk_text is not defined" ∧
    ∀ i, VOEvent.sectionAudioWrite i ∉
      (generate_voice_over keys probe textFiles numTitles titleRun
        (s :: rest)).2 := by
  have hc : "chunk_text" ∉ moduleGlobals := by decide
  have hsec : sectionPhase 1 (s :: rest)
      = (.error "NameError: name chunk_text is not defined",
         [.sectionScriptWrite 1]) := by
    simp [sectionPhase, hc]
  have htp := titlePhase_ok titleRun htitles numTitles 1
  constructor
  · simp only [generate_voice_over, hgate, if_true, htp.1, hsec]
  · intro i hmem
    simp only [generate_voice_over, hgate, if_true, htp.1, hsec] at hmem
    rcases List.mem_append.mp hmem with h | h
    · obtain ⟨k, hk⟩ := probeKeys_events probe
        (estimate_total_credits_needed textFiles) keys _ h
      exact absurd hk (by simp)
    · rcases List.mem_cons.mp h with h | h
      · exact absurd h (by simp)
      · rcases List.mem_append.mp h with h | h
        · obtain ⟨n, hn⟩ := htp.2 _ h
          exact absurd hn (by simp)
        · rcases List.mem_cons.mp h with h | h
          · exact absurd h (by simp)
          · simp at h

/-- C10 witness: one fail-open key, one successful title, one section: the
run ends in the `NameError`. -/
theorem section_chunk_nameerror_witness :
    (generate_voice_over ["k"] (fun _ => none) [] 1 (fun _ => Except.ok ())
        [['a']]).1
      = Except.error "NameError: name chunk_text is not defined" :=
  (section_chunk_nameerror ["k"] (fun _ => none) [] 1 (fun _ => Except.ok ())
    ['a'] [] (by decide) (fun _ => rfl)).1

/-- C7 counterexample: on the line `label:sk_a:b` the code keeps only
`sk_a` — the field between the first and second colon — while the claim's
"part after the first colon" is `sk_a:b`. -/
theorem key_extraction_cex :
    load_elevenlabs_keys ["label:sk_a:b".data] = Except.ok ["sk_a".data] ∧
    load_keys_claim ["label:sk_a:b".data] = Except.ok ["sk_a:b".data] ∧
    ("sk_a".data : List Char) ≠ "sk_a:b".data :=
  ⟨rfl, rfl, by decide⟩

/-- An element that does not satisfy the predicate survives `dropWhile`. -/
theorem mem_dropWhile_of_neg (p : Char → Bool) :
    ∀ (l : List Char) (c : Char), c ∈ l → p c = false → c ∈ l.dropWhile p := by
  intro l
  induction l with
  | nil =>
    intro c hc _
    simp at hc
  | cons a t ih =>
    intro c hc hp
    rw [List.dropWhile_cons]
    split
    · rename_i ha
      rcases List.mem_cons.mp hc with rfl | hc
      · rw [hp] at ha
        cases ha
      · exact ih c hc hp
    · exact hc

/-- A non-whitespace character of a line survives `str.strip()`. -/
theorem mem_pyStrip {l : List Char} {c : Char} (hc : c ∈ l)
    (hp : isPySpace c = false) : c ∈ pyStrip l := by
  have h1 : c ∈ l.dropWhile isPySpace := mem_dropWhile_of_neg _ l c hc hp
  have h2 : c ∈ (l.dropWhile isPySpace).reverse := List.mem_reverse.mpr h1
  have h3 := mem_dropWhile_of_neg _ _ c h2 hp
  exact List.mem_reverse.mpr h3

/-- Auxiliary: `getD 0` is `headD`. -/
theorem getD_zero_eq_headD (l : List (List Char)) :
    l.getD 0 [] = l.headD [] := by
  cases l <;> rfl

/-- Auxiliary: `getD 1` reads the head of the tail. -/
theorem getD_one_eq_tail_headD (l : List (List Char)) :
    l.getD 1 [] = l.tail.headD [] := by
  cases l with
  | nil => rfl
  | cons a t => cases t <;> rfl

/-- The first field of a Python split is the prefix before the first
separator. -/
theorem pySplit_headD (sep : Char) :
    ∀ l : List Char, (pySplit sep l).headD []
      = l.takeWhile (fun c => decide (c ≠ sep)) := by
  intro l
  induction l with
  | nil => rfl
  | cons c t ih =>
    simp only [pySplit]
    split
    · rename_i hc
      subst hc
      simp [List.takeWhile_cons]
    · rename_i hc
      rw [List.headD_cons, ih, List.takeWhile_cons]
      simp [hc]

/-- The second field of a Python split is the segment between the first
separator and the next one. -/
theorem pySplit_getD_one (sep : Char) :
    ∀ l : List Char, sep ∈ l →
      (pySplit sep l).getD 1 []
        = ((l.dropWhile (fun c => decide (c ≠ sep))).drop 1).takeWhile
            (fun c => decide (c ≠ sep)) := by
  intro l
  induction l with
  | nil =>
    intro h
    simp at h
  | cons c t ih =>
    intro hmem
    simp only [pySplit]
    split
    · rename_i hc
      subst hc
      rw [List.getD_cons_succ, getD_zero_eq_headD, pySplit_headD]
      have hd : (c :: t).dropWhile (fun x => decide (x ≠ c)) = c :: t := by
        rw [List.dropWhile_cons]
        simp
      rw [hd]
      rfl
    · rename_i hc
      have hsept : sep ∈ t := by
        rcases List.mem_cons.mp hmem with h | h
        · exact absurd h.symm hc
        · exact h
      rw [List.getD_cons_succ, getD_zero_eq_headD, ← getD_one_eq_tail_headD,
        ih hsept]
      have hd : (c :: t).dropWhile (fun x => decide (x ≠ sep))
          = t.dropWhile (fun x => decide (x ≠ sep)) := by
        rw [List.dropWhile_cons]
        simp [hc]
      rw [hd]

/-- Per-line equality of the code's extraction and the amended
description. -/
theorem extract_key_eq_amended (line : List Char) :
    extract_key line = extract_key_amended line := by
  unfold extract_key extract_key_amended
  split
  · rename_i hmem
    have hmem' : ':' ∈ pyStrip line := mem_pyStrip hmem rfl
    rw [pySplit_getD_one ':' (pyStrip line) hmem']
    rfl
  · rfl

/-- C7 (amended): `_load_elevenlabs_keys` returns exactly the keys
extracted from the lines containing `':'` as the second colon-separated
field of the stripped line (the part between the first colon and the
following colon, or to the end of the line when there is none), filtered
by the `sk_` prefix, in file-line order; it raises an error instead of
returning an empty pool when no line yields such a key. -/
theorem key_extraction_amended (lines : List (List Char)) :
    load_elevenlabs_keys lines = load_keys_amended lines := by
  unfold load_elevenlabs_keys load_keys_amended
  rw [show extract_key = extract_key_amended from funext extract_key_eq_amended]
